import Mathlib

/-!
Shallow embedding of the arXiv HTTP client
(`src/research_tools/arxiv_http_client.py` and `src/research_tools/main.py`).

XML elements are modelled after `xml.etree.ElementTree`; Python exceptions
raised inside a `try` block are modelled by `Except Unit`; the catch-all
`except` handlers convert errors into `none` / `[]` exactly as the source does.
The network call and `ET.fromstring` are modelled as oracles passed in as
arguments (their outcome, success with a root element or a raised exception,
is all the rest of the code can observe).
-/

namespace ArxivClient

/-- Model of an XML element as produced by `xml.etree.ElementTree`: a tag,
an attribute list, optional text, and an ordered list of child elements. -/
inductive Element : Type where
  | mk : String → List (String × String) → Option String → List Element → Element

def Element.tag : Element → String
  | .mk t _ _ _ => t

def Element.attrib : Element → List (String × String)
  | .mk _ a _ _ => a

def Element.text : Element → Option String
  | .mk _ _ x _ => x

def Element.children : Element → List Element
  | .mk _ _ _ c => c

/-- ElementTree `element.get(key)`: the attribute value, `None` when absent. -/
def Element.get (e : Element) (key : String) : Option String :=
  e.attrib.lookup key

/-- ElementTree `element.find(tag)`: the first direct child with the tag, `None` when absent. -/
def Element.find (e : Element) (t : String) : Option Element :=
  e.children.find? (fun c => c.tag == t)

/-- ElementTree `element.findall(tag)`: all direct children with the tag, in document order. -/
def Element.findall (e : Element) (t : String) : List Element :=
  e.children.filter (fun c => c.tag == t)

/-- All descendants of the elements of the list (each element itself included)
carrying the given tag, in document (preorder) order. -/
def findallRecList (t : String) : List Element → List Element
  | [] => []
  | Element.mk tg a tx ch :: cs =>
      (if tg == t then [Element.mk tg a tx ch] else [])
        ++ findallRecList t ch ++ findallRecList t cs

/-- ElementTree `root.findall(".//tag")`: all proper descendants of `root`
with the given tag, in document order.  `root.find(".//tag")` is its head. -/
def findallRec (t : String) (e : Element) : List Element :=
  findallRecList t e.children

/-- `ATOM_NAMESPACE` constant of `arxiv_http_client.py`. -/
def ATOM_NAMESPACE : String := "\x7bhttp://www.w3.org/2005/Atom\x7d"

/-- Python whitespace as stripped by `str.strip()` (the ASCII whitespace characters). -/
def isPyWs (c : Char) : Bool :=
  c = ' ' || c = '\t' || c = '\n' || c = '\r' || c = '\x0b' || c = '\x0c'

/-- Python `str.strip()` on the character list: drop whitespace from both ends. -/
def pyStripChars (l : List Char) : List Char :=
  ((l.dropWhile isPyWs).reverse.dropWhile isPyWs).reverse

/-- The character map performed by `.replace("\n", " ")`. -/
def nlToSpace (c : Char) : Char :=
  if c = '\n' then ' ' else c

/-- Python `.replace("\n", " ")` on the character list (the pattern is a
single character, so the replacement is a character map). -/
def pyReplaceNlChars (l : List Char) : List Char :=
  l.map nlToSpace

/-- The normalization `.strip().replace("\n", " ")` applied to title and
summary text in `_parse_entry`. -/
def normalizeText (s : String) : String :=
  String.mk (pyReplaceNlChars (pyStripChars s.data))

/-- Python `s.split("/")` on the character list: maximal runs between `'/'`
separators, empty runs included; never the empty list. -/
def splitOnSlash : List Char → List (List Char)
  | [] => [[]]
  | c :: cs =>
      if c = '/' then [] :: splitOnSlash cs
      else
        match splitOnSlash cs with
        | [] => [[c]]
        | p :: ps => (c :: p) :: ps

/-- Python `l.split("/")[-1]` on a character list (`split` never returns an
empty list, so the default is never taken). -/
def lastSegmentChars (l : List Char) : List Char :=
  (splitOnSlash l).getLastD []

/-- Python `s.split("/")[-1]` as used to derive `arxiv_id` in `_parse_entry`. -/
def lastSegment (s : String) : String :=
  String.mk (lastSegmentChars s.data)

/-- The record built by `_parse_entry`.  Fields whose value can be Python
`None` without an exception being raised are `Option`s. -/
structure PaperRecord where
  arxiv_id : String
  title : String
  authors : List (Option String)
  summary : String
  published_date : Option String
  pdf_url : Option String
deriving DecidableEq

/-- The loop condition `link.get("title") == "pdf"` of `_parse_entry`
(Python `None == "pdf"` is `False`, so an absent attribute never matches). -/
def isPdfLink (l : Element) : Bool :=
  l.get "title" == some "pdf"

/-- The `for link in ...` loop of `_parse_entry`: `pdf_url` starts as `""`,
is set to the `href` attribute of the first link whose `title` attribute
equals `"pdf"`, and the loop then breaks. -/
def pdfLoop : List Element → Option String
  | [] => some ""
  | l :: rest => if isPdfLink l then l.get "href" else pdfLoop rest

/-- The author list comprehension of `_parse_entry`: the `name`-child text of
every `author` child that has a `name` child, in document order. -/
def authorsOf (entry : Element) : List (Option String) :=
  (entry.findall (ATOM_NAMESPACE ++ "author")).filterMap
    (fun a => (a.find (ATOM_NAMESPACE ++ "name")).map Element.text)

/-- The body of `_parse_entry`'s `try` block.  Each `.error ()` is an
`AttributeError` raised by an attribute access on `None` (`None.text`,
`None.split`, `None.strip`); note that a `published` element whose text is
`None` raises nothing, since the text is stored without a method call. -/
def parseEntryExc (entry : Element) : Except Unit PaperRecord :=
  match entry.find (ATOM_NAMESPACE ++ "id") with
  | none => .error ()
  | some idEl =>
    match idEl.text with
    | none => .error ()
    | some arxiv_id_full =>
      match entry.find (ATOM_NAMESPACE ++ "title") with
      | none => .error ()
      | some titleEl =>
        match titleEl.text with
        | none => .error ()
        | some titleText =>
          match entry.find (ATOM_NAMESPACE ++ "summary") with
          | none => .error ()
          | some summaryEl =>
            match summaryEl.text with
            | none => .error ()
            | some summaryText =>
              match entry.find (ATOM_NAMESPACE ++ "published") with
              | none => .error ()
              | some publishedEl =>
                .ok {
                  arxiv_id := lastSegment arxiv_id_full
                  title := normalizeText titleText
                  authors := authorsOf entry
                  summary := normalizeText summaryText
                  published_date := publishedEl.text
                  pdf_url := pdfLoop (entry.findall (ATOM_NAMESPACE ++ "link")) }

/-- `_parse_entry`: the `try` body with its catch-all `except` returning `None`. -/
def _parse_entry (entry : Element) : Option PaperRecord :=
  match parseEntryExc entry with
  | .ok r => some r
  | .error _ => none

/-- The `try` body of `search_papers`: fetch the body (the `urlopen` /
`read` / `decode` pipeline, which may raise), parse it with `ET.fromstring`
(which may raise), then collect the parsed entries.  `if parsed:` keeps a
record exactly when `_parse_entry` did not return `None` (the record dict is
non-empty, hence truthy). -/
def searchBody (fetch : Except Unit String)
    (fromstring : String → Except Unit Element) : Except Unit (List PaperRecord) :=
  match fetch with
  | .error e => .error e
  | .ok xml_data =>
    match fromstring xml_data with
    | .error e => .error e
    | .ok root =>
        .ok ((findallRec (ATOM_NAMESPACE ++ "entry") root).filterMap _parse_entry)

/-- `search_papers`: its `try` body with the catch-all `except` returning `[]`.
The query parameters only shape the URL handed to the network, which the
`fetch` oracle abstracts, so they do not appear here. -/
def search_papers (fetch : Except Unit String)
    (fromstring : String → Except Unit Element) : Except Unit (List PaperRecord) :=
  match searchBody fetch fromstring with
  | .ok results => .ok results
  | .error _ => .ok []

/-- The `try` body of `get_paper_details`: fetch and parse the feed, take the
first `.//entry` descendant if any and run `_parse_entry` on it, else `None`. -/
def getBody (fetch : Except Unit String)
    (fromstring : String → Except Unit Element) : Except Unit (Option PaperRecord) :=
  match fetch with
  | .error e => .error e
  | .ok xml_data =>
    match fromstring xml_data with
    | .error e => .error e
    | .ok root =>
        match (findallRec (ATOM_NAMESPACE ++ "entry") root).head? with
        | some entry => .ok (_parse_entry entry)
        | none => .ok none

/-- `get_paper_details`: its `try` body with the catch-all `except` returning `None`. -/
def get_paper_details (fetch : Except Unit String)
    (fromstring : String → Except Unit Element) : Except Unit (Option PaperRecord) :=
  match getBody fetch fromstring with
  | .ok r => .ok r
  | .error _ => .ok none

/-- Python slice `s[:n]`. -/
def pySlice (s : String) (n : Nat) : String :=
  String.mk (s.data.take n)

/-- The search subcommand's summary display (main.py): the argument of the
`print` call is the whole conditional expression, so the summary text shown
is its first 200 characters followed by `"..."` (under the `"  Summary: "`
label) when longer than 200 characters, and the bare summary otherwise. -/
def displaySummary (summary : String) : String :=
  if summary.length > 200 then "  Summary: " ++ pySlice summary 200 ++ "..."
  else summary

/-- Python values appearing in the record dict built by `_parse_entry`. -/
inductive PyVal : Type where
  | str : String → PyVal
  | none : PyVal
  | list : List PyVal → PyVal

/-- A Python value that is a string or `None`. -/
def optStr : Option String → PyVal
  | Option.none => PyVal.none
  | Option.some s => PyVal.str s

/-- The dict literal returned by `_parse_entry`, key by key in source order. -/
def PaperRecord.toDict (r : PaperRecord) : List (String × PyVal) :=
  [("arxiv_id", PyVal.str r.arxiv_id),
   ("title", PyVal.str r.title),
   ("authors", PyVal.list (r.authors.map optStr)),
   ("summary", PyVal.str r.summary),
   ("published_date", optStr r.published_date),
   ("pdf_url", optStr r.pdf_url)]

/-! Definitions written from the specification's words, for refinement
statements comparing the source's behaviour against the spec. -/

/-- Written from the spec: `r` is the substring of `s` after the last `'/'`
(`s` itself when `s` has no `'/'`). -/
def IsAfterLastSlash (s r : List Char) : Prop :=
  ('/' ∉ s ∧ r = s) ∨ ∃ pre, s = pre ++ '/' :: r ∧ '/' ∉ r

/-- Written from the spec: collect all `author` sub-elements with a `name`
child; extract the name text in document order; author sub-elements without
a `name` child are silently skipped. -/
def authorsSpec (entry : Element) : List (Option String) :=
  ((entry.findall (ATOM_NAMESPACE ++ "author")).filter
      (fun a => (a.find (ATOM_NAMESPACE ++ "name")).isSome)).map
    (fun a => (a.find (ATOM_NAMESPACE ++ "name")).bind Element.text)

/-- The failure conditions of the mandatory-field steps of `_parse_entry`
that raise: the identifier, title, or summary element missing or their text
missing, or the published-date element missing.  (A published-date element
present with absent text is deliberately not listed: the source stores its
text without a method call, so nothing raises.) -/
def MissingMandatory (e : Element) : Prop :=
  e.find (ATOM_NAMESPACE ++ "id") = none ∨
  (∃ idEl, e.find (ATOM_NAMESPACE ++ "id") = some idEl ∧ idEl.text = none) ∨
  e.find (ATOM_NAMESPACE ++ "title") = none ∨
  (∃ tEl, e.find (ATOM_NAMESPACE ++ "title") = some tEl ∧ tEl.text = none) ∨
  e.find (ATOM_NAMESPACE ++ "summary") = none ∨
  (∃ sEl, e.find (ATOM_NAMESPACE ++ "summary") = some sEl ∧ sEl.text = none) ∨
  e.find (ATOM_NAMESPACE ++ "published") = none

/-- A character list with no leading and no trailing Python whitespace. -/
def Stripped (l : List Char) : Prop :=
  (∀ c ∈ l.head?, isPyWs c = false) ∧ (∀ c ∈ l.getLast?, isPyWs c = false)

/-! Concrete feed elements used to evaluate the development on closed inputs. -/

/-- A leaf element with text and no attributes or children. -/
def textEl (t : String) (txt : String) : Element :=
  .mk t [] (some txt) []

/-- A well-formed entry: identifier with several slashes, title and summary
needing normalization, three named authors plus one author without a name
child, and three links of which the second and third are marked `pdf`. -/
def entryA : Element :=
  .mk (ATOM_NAMESPACE ++ "entry") [] none
    [ textEl (ATOM_NAMESPACE ++ "id") "http://arxiv.org/abs/hep-ex/0307015v1",
      textEl (ATOM_NAMESPACE ++ "title") "A\nB",
      textEl (ATOM_NAMESPACE ++ "summary") " s1 ",
      textEl (ATOM_NAMESPACE ++ "published") "2003-07-08T00:00:00Z",
      Element.mk (ATOM_NAMESPACE ++ "author") [] none
        [textEl (ATOM_NAMESPACE ++ "name") "Alice"],
      Element.mk (ATOM_NAMESPACE ++ "author") [] none [],
      Element.mk (ATOM_NAMESPACE ++ "author") [] none
        [textEl (ATOM_NAMESPACE ++ "name") "Bob"],
      Element.mk (ATOM_NAMESPACE ++ "author") [] none
        [textEl (ATOM_NAMESPACE ++ "name") "Carol"],
      Element.mk (ATOM_NAMESPACE ++ "link") [("title", "other"), ("href", "u0")] none [],
      Element.mk (ATOM_NAMESPACE ++ "link") [("title", "pdf"), ("href", "u1")] none [],
      Element.mk (ATOM_NAMESPACE ++ "link") [("title", "pdf"), ("href", "u2")] none [] ]

/-- The record `_parse_entry` produces for `entryA`. -/
def recA : PaperRecord :=
  { arxiv_id := "0307015v1"
    title := "A B"
    authors := [some "Alice", some "Bob", some "Carol"]
    summary := "s1"
    published_date := some "2003-07-08T00:00:00Z"
    pdf_url := some "u1" }

/-- A malformed entry: the mandatory `title` element is missing. -/
def entryB : Element :=
  .mk (ATOM_NAMESPACE ++ "entry") [] none
    [ textEl (ATOM_NAMESPACE ++ "id") "http://arxiv.org/abs/1234.5678v2",
      textEl (ATOM_NAMESPACE ++ "summary") "s2",
      textEl (ATOM_NAMESPACE ++ "published") "2020-01-01T00:00:00Z" ]

/-- An entry whose `published` element is present but carries no text; the
other three mandatory fields are present with text. -/
def entryPubNoText : Element :=
  .mk (ATOM_NAMESPACE ++ "entry") [] none
    [ textEl (ATOM_NAMESPACE ++ "id") "x/y",
      textEl (ATOM_NAMESPACE ++ "title") "t",
      textEl (ATOM_NAMESPACE ++ "summary") "s",
      Element.mk (ATOM_NAMESPACE ++ "published") [] none [] ]

/-- An entry with exactly three author sub-elements, each with a `name` child. -/
def entryAuth3 : Element :=
  .mk (ATOM_NAMESPACE ++ "entry") [] none
    [ textEl (ATOM_NAMESPACE ++ "id") "http://arxiv.org/abs/0706.0001v1",
      textEl (ATOM_NAMESPACE ++ "title") "t3",
      textEl (ATOM_NAMESPACE ++ "summary") "s3",
      textEl (ATOM_NAMESPACE ++ "published") "2007-06-01T00:00:00Z",
      Element.mk (ATOM_NAMESPACE ++ "author") [] none
        [textEl (ATOM_NAMESPACE ++ "name") "D"],
      Element.mk (ATOM_NAMESPACE ++ "author") [] none
        [textEl (ATOM_NAMESPACE ++ "name") "E"],
      Element.mk (ATOM_NAMESPACE ++ "author") [] none
        [textEl (ATOM_NAMESPACE ++ "name") "F"] ]

/-- An entry with several links of which exactly one is marked `pdf`. -/
def entryC : Element :=
  .mk (ATOM_NAMESPACE ++ "entry") [] none
    [ textEl (ATOM_NAMESPACE ++ "id") "http://arxiv.org/abs/0801.0001v1",
      textEl (ATOM_NAMESPACE ++ "title") "tc",
      textEl (ATOM_NAMESPACE ++ "summary") "sc",
      textEl (ATOM_NAMESPACE ++ "published") "2008-01-01T00:00:00Z",
      Element.mk (ATOM_NAMESPACE ++ "link") [("title", "doi"), ("href", "d0")] none [],
      Element.mk (ATOM_NAMESPACE ++ "link") [("title", "pdf"), ("href", "p1")] none [] ]

/-- An entry with links, none of which is marked `pdf`. -/
def entryD : Element :=
  .mk (ATOM_NAMESPACE ++ "entry") [] none
    [ textEl (ATOM_NAMESPACE ++ "id") "http://arxiv.org/abs/0901.0001v1",
      textEl (ATOM_NAMESPACE ++ "title") "td",
      textEl (ATOM_NAMESPACE ++ "summary") "sd",
      textEl (ATOM_NAMESPACE ++ "published") "2009-01-01T00:00:00Z",
      Element.mk (ATOM_NAMESPACE ++ "link") [("title", "doi"), ("href", "d1")] none [] ]

/-- A feed whose entries are the well-formed `entryA` and the malformed `entryB`. -/
def feedAB : Element :=
  .mk "feed" [] none [entryA, entryB]

/-- A feed with zero entries. -/
def feedEmpty : Element :=
  .mk "feed" [] none [textEl "title" "ArXiv Query: no hits"]

/-- A feed whose only entry is the malformed `entryB`. -/
def feedB : Element :=
  .mk "feed" [] none [entryB]

/-- The record `_parse_entry` produces for `entryPubNoText`: partially
populated, its `published_date` absent. -/
def recPubNoText : PaperRecord :=
  { arxiv_id := "y"
    title := "t"
    authors := []
    summary := "s"
    published_date := none
    pdf_url := some "" }

/-- The record `_parse_entry` produces for `entryAuth3`. -/
def recAuth3 : PaperRecord :=
  { arxiv_id := "0706.0001v1"
    title := "t3"
    authors := [some "D", some "E", some "F"]
    summary := "s3"
    published_date := some "2007-06-01T00:00:00Z"
    pdf_url := some "" }

/-- The record `_parse_entry` produces for `entryC`. -/
def recC : PaperRecord :=
  { arxiv_id := "0801.0001v1"
    title := "tc"
    authors := []
    summary := "sc"
    published_date := some "2008-01-01T00:00:00Z"
    pdf_url := some "p1" }

/-- The record `_parse_entry` produces for `entryD`. -/
def recD : PaperRecord :=
  { arxiv_id := "0901.0001v1"
    title := "td"
    authors := []
    summary := "sd"
    published_date := some "2009-01-01T00:00:00Z"
    pdf_url := some "" }

/-- A 201-character summary, one character beyond the display limit. -/
def longSummary : String :=
  String.mk (List.replicate 201 'a')

/-- A fetch oracle returning a fixed body successfully. -/
def fetchOk (body : String) : Except Unit String :=
  Except.ok body

/-- An XML-parse oracle mapping one known body to a root element and raising
on everything else. -/
def fromstringOf (body : String) (root : Element) : String → Except Unit Element :=
  fun s => if s = body then Except.ok root else Except.error ()

/-! Helper lemmas. -/

/-- Inversion of a successful `_parse_entry` run: every mandatory element was
found, the identifier/title/summary texts were present, and each record field
is the value the source computes for it. -/
theorem parseEntry_some_elim {e : Element} {r : PaperRecord}
    (h : _parse_entry e = some r) :
    ∃ idEl idTxt titleEl titleTxt summaryEl summaryTxt publishedEl,
      e.find (ATOM_NAMESPACE ++ "id") = some idEl ∧
      idEl.text = some idTxt ∧
      e.find (ATOM_NAMESPACE ++ "title") = some titleEl ∧
      titleEl.text = some titleTxt ∧
      e.find (ATOM_NAMESPACE ++ "summary") = some summaryEl ∧
      summaryEl.text = some summaryTxt ∧
      e.find (ATOM_NAMESPACE ++ "published") = some publishedEl ∧
      r.arxiv_id = lastSegment idTxt ∧
      r.title = normalizeText titleTxt ∧
      r.authors = authorsOf e ∧
      r.summary = normalizeText summaryTxt ∧
      r.published_date = publishedEl.text ∧
      r.pdf_url = pdfLoop (e.findall (ATOM_NAMESPACE ++ "link")) := by
  rcases h1 : e.find (ATOM_NAMESPACE ++ "id") with _ | idEl
  · simp [_parse_entry, parseEntryExc, h1] at h
  rcases h2 : idEl.text with _ | idTxt
  · simp [_parse_entry, parseEntryExc, h1, h2] at h
  rcases h3 : e.find (ATOM_NAMESPACE ++ "title") with _ | titleEl
  · simp [_parse_entry, parseEntryExc, h1, h2, h3] at h
  rcases h4 : titleEl.text with _ | titleTxt
  · simp [_parse_entry, parseEntryExc, h1, h2, h3, h4] at h
  rcases h5 : e.find (ATOM_NAMESPACE ++ "summary") with _ | summaryEl
  · simp [_parse_entry, parseEntryExc, h1, h2, h3, h4, h5] at h
  rcases h6 : summaryEl.text with _ | summaryTxt
  · simp [_parse_entry, parseEntryExc, h1, h2, h3, h4, h5, h6] at h
  rcases h7 : e.find (ATOM_NAMESPACE ++ "published") with _ | publishedEl
  · simp [_parse_entry, parseEntryExc, h1, h2, h3, h4, h5, h6, h7] at h
  refine ⟨idEl, idTxt, titleEl, titleTxt, summaryEl, summaryTxt, publishedEl,
    rfl, h2, rfl, h4, rfl, h6, rfl, ?_⟩
  simp [_parse_entry, parseEntryExc, h1, h2, h3, h4, h5, h6, h7] at h
  subst h
  simp


theorem splitOnSlash_ne_nil (l : List Char) : splitOnSlash l ≠ [] := by
  cases l with
  | nil => simp [splitOnSlash]
  | cons c cs =>
    simp only [splitOnSlash]
    split
    · simp
    · split <;> simp

theorem splitOnSlash_length (l : List Char) :
    (splitOnSlash l).length = l.count '/' + 1 := by
  induction l with
  | nil => simp [splitOnSlash]
  | cons c cs ih =>
    by_cases hc : c = '/'
    · subst hc
      simp [splitOnSlash, List.count_cons, ih]
    · rcases hS : splitOnSlash cs with _ | ⟨p, ps⟩
      · exact absurd hS (splitOnSlash_ne_nil cs)
      · simp only [splitOnSlash, if_neg hc, hS]
        rw [hS] at ih
        simp only [List.length_cons] at ih ⊢
        simp [List.count_cons, hc, ih]

theorem lastSegmentChars_slash (cs : List Char) :
    lastSegmentChars ('/' :: cs) = lastSegmentChars cs := by
  unfold lastSegmentChars
  simp only [splitOnSlash, if_pos rfl]
  exact List.getLastD_cons ..

theorem lastSegmentChars_cons {c : Char} (hc : c ≠ '/') (cs : List Char) :
    lastSegmentChars (c :: cs) =
      if '/' ∈ cs then lastSegmentChars cs else c :: lastSegmentChars cs := by
  unfold lastSegmentChars
  rcases hS : splitOnSlash cs with _ | ⟨p, ps⟩
  · exact absurd hS (splitOnSlash_ne_nil cs)
  have hlen := splitOnSlash_length cs
  rw [hS] at hlen
  simp only [List.length_cons] at hlen
  simp only [splitOnSlash, if_neg hc, hS]
  rcases hps : ps with _ | ⟨q, qs⟩
  · have hcount : cs.count '/' = 0 := by
      rw [hps] at hlen; simpa using hlen.symm
    have hmem : '/' ∉ cs := by
      rw [← List.count_eq_zero]; exact hcount
    simp [hmem, List.getLastD_cons]
  · have hcount : cs.count '/' = ps.length := by omega
    have hmem : '/' ∈ cs := by
      rw [← List.count_pos_iff]
      rw [hps] at hcount
      simp [hcount]
    simp [hmem, hps, List.getLastD_cons]

theorem lastSegmentChars_isAfterLastSlash (l : List Char) :
    IsAfterLastSlash l (lastSegmentChars l) := by
  induction l with
  | nil => exact Or.inl ⟨by simp, rfl⟩
  | cons c cs ih =>
    by_cases hc : c = '/'
    · subst hc
      rw [lastSegmentChars_slash]
      right
      rcases ih with ⟨hni, he⟩ | ⟨pre, hpre, hnr⟩
      · exact ⟨[], by rw [he]; rfl, by rw [he]; exact hni⟩
      · exact ⟨'/' :: pre, by rw [List.cons_append, ← hpre], hnr⟩
    · rw [lastSegmentChars_cons hc]
      by_cases hm : '/' ∈ cs
      · rw [if_pos hm]
        right
        rcases ih with ⟨hni, _⟩ | ⟨pre, hpre, hnr⟩
        · exact absurd hm hni
        · exact ⟨c :: pre, by rw [List.cons_append, ← hpre], hnr⟩
      · rw [if_neg hm]
        left
        rcases ih with ⟨_, he⟩ | ⟨pre, hpre, _⟩
        · constructor
          · intro hmem
            rcases List.mem_cons.mp hmem with h | h
            · exact hc h.symm
            · exact hm h
          · rw [he]
        · exact absurd (hpre ▸ List.mem_append_right pre (List.mem_cons_self '/' _)) hm

theorem lastSegment_spec (s : String) :
    IsAfterLastSlash s.data (lastSegment s).data :=
  lastSegmentChars_isAfterLastSlash s.data


theorem dropWhile_head_not {p : Char → Bool} :
    ∀ {x : List Char} {c : Char} {cs : List Char},
      x.dropWhile p = c :: cs → p c = false := by
  intro x
  induction x with
  | nil => intro c cs h; simp [List.dropWhile] at h
  | cons a t ih =>
    intro c cs h
    rw [List.dropWhile_cons] at h
    by_cases ha : p a
    · rw [if_pos ha] at h; exact ih h
    · rw [if_neg ha] at h
      cases h
      simpa using ha

theorem dropWhile_eq_self_of_head {p : Char → Bool} {l : List Char}
    (h : ∀ c ∈ l.head?, p c = false) : l.dropWhile p = l := by
  cases l with
  | nil => rfl
  | cons a t =>
    rw [List.dropWhile_cons, if_neg]
    simp only [List.head?_cons, Option.mem_some_iff] at h
    simp [h a rfl]

theorem dropWhile_getLast?_of_ne_nil {p : Char → Bool} :
    ∀ {x : List Char}, x.dropWhile p ≠ [] → (x.dropWhile p).getLast? = x.getLast? := by
  intro x
  induction x with
  | nil => intro h; simp [List.dropWhile] at h
  | cons a t ih =>
    intro h
    rw [List.dropWhile_cons] at h ⊢
    by_cases ha : p a
    · rw [if_pos ha] at h ⊢
      have ht : t ≠ [] := by
        intro he; subst he; simp [List.dropWhile] at h
      rw [ih h]
      cases t with
      | nil => exact absurd rfl ht
      | cons b t2 => simp [List.getLast?_cons_cons]
    · rw [if_neg ha]

theorem stripped_pyStripChars (l : List Char) : Stripped (pyStripChars l) := by
  unfold Stripped pyStripChars
  constructor
  · intro c hc
    rw [List.head?_reverse] at hc
    rcases hd : (l.dropWhile isPyWs).reverse.dropWhile isPyWs with _ | ⟨a, t⟩
    · rw [hd] at hc; simp at hc
    · have hne : (l.dropWhile isPyWs).reverse.dropWhile isPyWs ≠ [] := by
        rw [hd]; simp
      rw [dropWhile_getLast?_of_ne_nil hne, List.getLast?_reverse] at hc
      rcases hh : l.dropWhile isPyWs with _ | ⟨b, t2⟩
      · rw [hh] at hc; simp at hc
      · rw [hh] at hc
        simp only [List.head?_cons, Option.mem_some_iff] at hc
        subst hc
        exact dropWhile_head_not hh
  · intro c hc
    rw [List.getLast?_reverse] at hc
    rcases hd : (l.dropWhile isPyWs).reverse.dropWhile isPyWs with _ | ⟨a, t⟩
    · rw [hd] at hc; simp at hc
    · rw [hd] at hc
      simp only [List.head?_cons, Option.mem_some_iff] at hc
      subst hc
      exact dropWhile_head_not hd

theorem pyStripChars_eq_self_of_stripped {l : List Char} (h : Stripped l) :
    pyStripChars l = l := by
  obtain ⟨h1, h2⟩ := h
  unfold pyStripChars
  rw [dropWhile_eq_self_of_head h1]
  rw [dropWhile_eq_self_of_head (by rw [List.head?_reverse]; exact h2)]
  exact List.reverse_reverse l

theorem isPyWs_nlToSpace_false {c : Char} (h : isPyWs c = false) :
    isPyWs (nlToSpace c) = false := by
  unfold nlToSpace
  have hne : c ≠ '\n' := by
    intro he; subst he; simp [isPyWs] at h
  rw [if_neg hne]
  exact h

theorem stripped_pyReplaceNlChars {l : List Char} (h : Stripped l) :
    Stripped (pyReplaceNlChars l) := by
  obtain ⟨h1, h2⟩ := h
  unfold Stripped pyReplaceNlChars
  constructor
  · intro c hc
    rw [List.head?_map] at hc
    rcases hh : l.head? with _ | a
    · rw [hh] at hc; simp at hc
    · rw [hh] at hc
      simp at hc
      subst hc
      exact isPyWs_nlToSpace_false (h1 a (by rw [hh]; rfl))
  · intro c hc
    rw [List.getLast?_map] at hc
    rcases hh : l.getLast? with _ | a
    · rw [hh] at hc; simp at hc
    · rw [hh] at hc
      simp at hc
      subst hc
      exact isPyWs_nlToSpace_false (h2 a (by rw [hh]; rfl))

theorem nlToSpace_idem (c : Char) : nlToSpace (nlToSpace c) = nlToSpace c := by
  unfold nlToSpace
  by_cases h : c = '\n'
  · rw [if_pos h, if_neg (by decide)]
  · rw [if_neg h, if_neg h]

theorem pyReplaceNlChars_idem (l : List Char) :
    pyReplaceNlChars (pyReplaceNlChars l) = pyReplaceNlChars l := by
  unfold pyReplaceNlChars
  rw [List.map_map]
  have : nlToSpace ∘ nlToSpace = nlToSpace := by
    funext c; exact nlToSpace_idem c
  rw [this]

theorem normalizeText_idem (s : String) :
    normalizeText (normalizeText s) = normalizeText s := by
  unfold normalizeText
  have hdata : (String.mk (pyReplaceNlChars (pyStripChars s.data))).data
      = pyReplaceNlChars (pyStripChars s.data) := rfl
  rw [hdata]
  rw [pyStripChars_eq_self_of_stripped
    (stripped_pyReplaceNlChars (stripped_pyStripChars s.data))]
  rw [pyReplaceNlChars_idem]


theorem pdfLoop_eq_find? (ls : List Element) :
    pdfLoop ls = match ls.find? isPdfLink with
      | some l => l.get "href"
      | none => some "" := by
  induction ls with
  | nil => rfl
  | cons a t ih =>
    by_cases h : isPdfLink a
    · simp [pdfLoop, List.find?_cons, h]
    · have hf : isPdfLink a = false := by simpa using h
      simp [pdfLoop, List.find?_cons, hf, ih]

theorem find?_eq_head_filter (p : Element → Bool) (ls : List Element) :
    ls.find? p = (ls.filter p).head? :=
  (List.filter_head? p ls).symm

theorem authorsOf_eq_spec (entry : Element) : authorsOf entry = authorsSpec entry := by
  unfold authorsOf authorsSpec
  induction entry.findall (ATOM_NAMESPACE ++ "author") with
  | nil => rfl
  | cons a t ih =>
    rcases h : a.find (ATOM_NAMESPACE ++ "name") with _ | nel
    · simp [List.filterMap_cons, List.filter_cons, h, ih]
    · simp [List.filterMap_cons, List.filter_cons, h, ih]


/-- C1 (amended): for every feed entry whose four mandatory fields are present,
the parsed record's `arxiv_id` equals the substring after the last `/` of the
raw identifier text; in particular, raw identifier
`http://arxiv.org/abs/hep-ex/0307015v1` parses to `arxiv_id` `0307015v1`. -/
theorem arxiv_id_after_last_slash :
    (∀ (e : Element) (r : PaperRecord) (idEl : Element) (idTxt : String),
        _parse_entry e = some r →
        e.find (ATOM_NAMESPACE ++ "id") = some idEl →
        idEl.text = some idTxt →
        r.arxiv_id = lastSegment idTxt ∧
        IsAfterLastSlash idTxt.data r.arxiv_id.data) ∧
    (_parse_entry entryA).map PaperRecord.arxiv_id = some "0307015v1" := by
  constructor
  · intro e r idEl idTxt h hfind htext
    obtain ⟨idEl', idTxt', tEl, tTxt, sEl, sTxt, pEl, h1, h2, h3, h4, h5, h6, h7,
      ha, ht, hau, hsum, hpub, hpdf⟩ := parseEntry_some_elim h
    rw [hfind] at h1
    injection h1 with h1
    subst h1
    rw [htext] at h2
    injection h2 with h2
    subst h2
    refine ⟨ha, ?_⟩
    rw [ha]
    exact lastSegment_spec idTxt
  · decide

/-- Witness for C1: the general statement applied to the concrete entry
`entryA`, whose identifier is the spec's example URL. -/
theorem arxiv_id_after_last_slash_witness :
    recA.arxiv_id = lastSegment "http://arxiv.org/abs/hep-ex/0307015v1" ∧
    IsAfterLastSlash ("http://arxiv.org/abs/hep-ex/0307015v1").data recA.arxiv_id.data :=
  arxiv_id_after_last_slash.1 entryA recA
    (textEl (ATOM_NAMESPACE ++ "id") "http://arxiv.org/abs/hep-ex/0307015v1")
    "http://arxiv.org/abs/hep-ex/0307015v1"
    (by decide) (by rfl) (by rfl)

/-- Counterexample for C1 as stated: the raw identifier
`http://arxiv.org/abs/hep-ex/0307015v1` parses to `arxiv_id` `0307015v1`
(the text after the last `/`), not to `hep-ex/0307015v1`. -/
theorem arxiv_id_example_refuted :
    (_parse_entry entryA).map PaperRecord.arxiv_id = some "0307015v1" ∧
    (_parse_entry entryA).map PaperRecord.arxiv_id ≠ some "hep-ex/0307015v1" := by
  constructor
  · decide
  · decide

/-- C7: the title/summary whitespace normalization applied during entry
parsing is idempotent: normalizing an already-normalized string yields the
same string. -/
theorem normalization_idempotent (s : String) :
    normalizeText (normalizeText s) = normalizeText s :=
  normalizeText_idem s

/-- C8: the search subcommand displays the summary truncated to its first 200
characters followed by an ellipsis when longer than 200 characters, and the
full summary otherwise. -/
theorem summary_display_truncation (s : String) :
    (s.length > 200 →
      displaySummary s = "  Summary: " ++ pySlice s 200 ++ "..." ∧
      (pySlice s 200).length = 200) ∧
    (s.length ≤ 200 → displaySummary s = s) := by
  constructor
  · intro h
    constructor
    · unfold displaySummary
      rw [if_pos h]
    · have hps : (pySlice s 200).length = (s.data.take 200).length := rfl
      have hsl : s.length = s.data.length := rfl
      rw [hps, List.length_take]
      omega
  · intro h
    unfold displaySummary
    rw [if_neg (by omega)]

/-- Witness for C8 at a 201-character summary and at a short summary. -/
theorem summary_display_truncation_witness :
    (longSummary.length > 200 ∧
      displaySummary longSummary = "  Summary: " ++ pySlice longSummary 200 ++ "..." ∧
      (pySlice longSummary 200).length = 200) ∧
    ("short".length ≤ 200 ∧ displaySummary "short" = "short") := by
  constructor
  · have h : longSummary.length > 200 := by
      have he : longSummary.length = (List.replicate 201 'a').length := rfl
      rw [he, List.length_replicate]
      omega
    exact ⟨h, (summary_display_truncation longSummary).1 h⟩
  · have h : "short".length ≤ 200 := by decide
    exact ⟨h, (summary_display_truncation "short").2 h⟩

/-- C10: every record produced by entry parsing carries exactly the six
fields `arxiv_id`, `title`, `authors`, `summary`, `published_date`,
`pdf_url`, all present, in the dict literal's order. -/
theorem record_has_six_fields (e : Element) (r : PaperRecord)
    (_h : _parse_entry e = some r) :
    r.toDict.map Prod.fst =
      ["arxiv_id", "title", "authors", "summary", "published_date", "pdf_url"] ∧
    ∀ k ∈ (["arxiv_id", "title", "authors", "summary", "published_date",
        "pdf_url"] : List String), (r.toDict.lookup k).isSome = true := by
  refine ⟨rfl, ?_⟩
  intro k hk
  fin_cases hk <;> rfl

/-- Witness for C10 at the concrete entry `entryA`. -/
theorem record_has_six_fields_witness :
    recA.toDict.map Prod.fst =
      ["arxiv_id", "title", "authors", "summary", "published_date", "pdf_url"] ∧
    ∀ k ∈ (["arxiv_id", "title", "authors", "summary", "published_date",
        "pdf_url"] : List String), (recA.toDict.lookup k).isSome = true :=
  record_has_six_fields entryA recA (by decide)


/-- Parsing discards the entry whenever one of the raising mandatory-field
steps fails. -/
theorem parseEntry_none_of_missing (e : Element) (hmiss : MissingMandatory e) :
    _parse_entry e = none := by
  unfold MissingMandatory at hmiss
  rcases h1 : e.find (ATOM_NAMESPACE ++ "id") with _ | idEl
  · simp [_parse_entry, parseEntryExc, h1]
  rcases h2 : idEl.text with _ | idTxt
  · simp [_parse_entry, parseEntryExc, h1, h2]
  rcases h3 : e.find (ATOM_NAMESPACE ++ "title") with _ | tEl
  · simp [_parse_entry, parseEntryExc, h1, h2, h3]
  rcases h4 : tEl.text with _ | tTxt
  · simp [_parse_entry, parseEntryExc, h1, h2, h3, h4]
  rcases h5 : e.find (ATOM_NAMESPACE ++ "summary") with _ | sEl
  · simp [_parse_entry, parseEntryExc, h1, h2, h3, h4, h5]
  rcases h6 : sEl.text with _ | sTxt
  · simp [_parse_entry, parseEntryExc, h1, h2, h3, h4, h5, h6]
  rcases h7 : e.find (ATOM_NAMESPACE ++ "published") with _ | pEl
  · simp [_parse_entry, parseEntryExc, h1, h2, h3, h4, h5, h6, h7]
  exfalso
  rcases hmiss with h | ⟨x, hx, hx2⟩ | h | ⟨x, hx, hx2⟩ | h | ⟨x, hx, hx2⟩ | h <;>
    simp_all

/-- C2 (amended): an entry missing the identifier, title, or summary element
or their text, or missing the published-date element, yields no record at
all — search omits such an entry from the returned sequence and
`get_paper_details` yields the absent result; however, an entry whose
published-date element is present with absent text still yields a record,
whose `published_date` is the absent value. -/
theorem missing_mandatory_field_discards_entry :
    (∀ e : Element, MissingMandatory e → _parse_entry e = none) ∧
    (∀ (e : Element) (r : PaperRecord) (pubEl : Element),
        _parse_entry e = some r →
        e.find (ATOM_NAMESPACE ++ "published") = some pubEl →
        r.published_date = pubEl.text) ∧
    (∀ (fetch : Except Unit String) (fromstring : String → Except Unit Element)
        (xml_data : String) (root e : Element) (pre post : List Element),
        fetch = Except.ok xml_data → fromstring xml_data = Except.ok root →
        findallRec (ATOM_NAMESPACE ++ "entry") root = pre ++ e :: post →
        MissingMandatory e →
        search_papers fetch fromstring =
          Except.ok ((pre ++ post).filterMap _parse_entry)) ∧
    (∀ (fetch : Except Unit String) (fromstring : String → Except Unit Element)
        (xml_data : String) (root e : Element),
        fetch = Except.ok xml_data → fromstring xml_data = Except.ok root →
        (findallRec (ATOM_NAMESPACE ++ "entry") root).head? = some e →
        MissingMandatory e →
        get_paper_details fetch fromstring = Except.ok none) := by
  refine ⟨parseEntry_none_of_missing, ?_, ?_, ?_⟩
  · intro e r pubEl h hfind
    obtain ⟨idEl, idTxt, tEl, tTxt, sEl, sTxt, pEl, g1, g2, g3, g4, g5, g6, g7,
      ha, ht, hau, hsum, hpub, hpdf⟩ := parseEntry_some_elim h
    rw [hfind] at g7
    injection g7 with g7
    subst g7
    exact hpub
  · intro fetch fromstring xml_data root e pre post hf hp hlist hbad
    subst hf
    simp [search_papers, searchBody, hp, hlist, List.filterMap_append,
      List.filterMap_cons, parseEntry_none_of_missing e hbad]
  · intro fetch fromstring xml_data root e hf hp hhead hbad
    subst hf
    simp [get_paper_details, getBody, hp, hhead, parseEntry_none_of_missing e hbad]

/-- Counterexample for C2 as stated: `entryPubNoText` has its published-date
element present but with absent text, yet parsing produces a partially
populated record rather than none. -/
theorem missing_published_text_still_parses :
    _parse_entry entryPubNoText = some recPubNoText := by
  decide

/-- C5: the authors field lists, in document order, the name text of each
author sub-element having a name child, skipping those without one; an entry
with three author sub-elements each containing a name yields a length-3
sequence. -/
theorem authors_in_document_order (e : Element) (r : PaperRecord)
    (h : _parse_entry e = some r) :
    r.authors = authorsSpec e ∧
    (∀ a1 a2 a3, e.findall (ATOM_NAMESPACE ++ "author") = [a1, a2, a3] →
      (a1.find (ATOM_NAMESPACE ++ "name")).isSome = true →
      (a2.find (ATOM_NAMESPACE ++ "name")).isSome = true →
      (a3.find (ATOM_NAMESPACE ++ "name")).isSome = true →
      r.authors.length = 3) := by
  obtain ⟨idEl, idTxt, tEl, tTxt, sEl, sTxt, pEl, g1, g2, g3, g4, g5, g6, g7,
    ha, ht, hau, hsum, hpub, hpdf⟩ := parseEntry_some_elim h
  have hspec : r.authors = authorsSpec e := by
    rw [hau]; exact authorsOf_eq_spec e
  refine ⟨hspec, ?_⟩
  intro a1 a2 a3 hfall hn1 hn2 hn3
  rw [hspec]
  unfold authorsSpec
  rw [hfall]
  simp [List.filter, hn1, hn2, hn3]

/-- Witness for C5: `entryA` (a nameless author among named ones) and
`entryAuth3` (exactly three named authors). -/
theorem authors_in_document_order_witness :
    recA.authors = authorsSpec entryA ∧ recAuth3.authors.length = 3 :=
  ⟨(authors_in_document_order entryA recA (by decide)).1,
   (authors_in_document_order entryAuth3 recAuth3 (by decide)).2
      (Element.mk (ATOM_NAMESPACE ++ "author") [] none
        [textEl (ATOM_NAMESPACE ++ "name") "D"])
      (Element.mk (ATOM_NAMESPACE ++ "author") [] none
        [textEl (ATOM_NAMESPACE ++ "name") "E"])
      (Element.mk (ATOM_NAMESPACE ++ "author") [] none
        [textEl (ATOM_NAMESPACE ++ "name") "F"])
      (by rfl) (by rfl) (by rfl) (by rfl)⟩

/-- C6: when exactly one link child is marked as the PDF variant, `pdf_url`
is that link's `href` attribute; when no link is so marked, `pdf_url` is the
empty string. -/
theorem pdf_url_extraction (e : Element) (r : PaperRecord)
    (h : _parse_entry e = some r) :
    (∀ l, (e.findall (ATOM_NAMESPACE ++ "link")).filter isPdfLink = [l] →
      r.pdf_url = l.get "href") ∧
    ((e.findall (ATOM_NAMESPACE ++ "link")).filter isPdfLink = [] →
      r.pdf_url = some "") := by
  obtain ⟨idEl, idTxt, tEl, tTxt, sEl, sTxt, pEl, g1, g2, g3, g4, g5, g6, g7,
    ha, ht, hau, hsum, hpub, hpdf⟩ := parseEntry_some_elim h
  have key : r.pdf_url =
      match (e.findall (ATOM_NAMESPACE ++ "link")).find? isPdfLink with
      | some l => l.get "href"
      | none => some "" := by
    rw [hpdf]; exact pdfLoop_eq_find? _
  constructor
  · intro l hfilter
    rw [key, find?_eq_head_filter, hfilter]
    rfl
  · intro hfilter
    rw [key, find?_eq_head_filter, hfilter]
    rfl

/-- Witness for C6: `entryC` (exactly one pdf-marked link) and `entryD`
(no pdf-marked link). -/
theorem pdf_url_extraction_witness :
    recC.pdf_url =
      (Element.mk (ATOM_NAMESPACE ++ "link") [("title", "pdf"), ("href", "p1")]
        none []).get "href" ∧
    recD.pdf_url = some "" :=
  ⟨(pdf_url_extraction entryC recC (by decide)).1
      (Element.mk (ATOM_NAMESPACE ++ "link") [("title", "pdf"), ("href", "p1")]
        none []) (by rfl),
   (pdf_url_extraction entryD recD (by decide)).2 (by rfl)⟩

/-- C9: when more than one link child is marked as the PDF variant, `pdf_url`
is taken from the first such link in document order; later matches are
ignored. -/
theorem pdf_url_first_match (e : Element) (r : PaperRecord) (l : Element)
    (rest : List Element) (h : _parse_entry e = some r)
    (hfilter : (e.findall (ATOM_NAMESPACE ++ "link")).filter isPdfLink = l :: rest) :
    r.pdf_url = l.get "href" := by
  obtain ⟨idEl, idTxt, tEl, tTxt, sEl, sTxt, pEl, g1, g2, g3, g4, g5, g6, g7,
    ha, ht, hau, hsum, hpub, hpdf⟩ := parseEntry_some_elim h
  rw [hpdf, pdfLoop_eq_find?, find?_eq_head_filter, hfilter]
  rfl

/-- Witness for C9: `entryA` carries two pdf-marked links with targets `u1`
and `u2`; the record's `pdf_url` is the first one's target. -/
theorem pdf_url_first_match_witness :
    recA.pdf_url =
      (Element.mk (ATOM_NAMESPACE ++ "link") [("title", "pdf"), ("href", "u1")]
        none []).get "href" :=
  pdf_url_first_match entryA recA
    (Element.mk (ATOM_NAMESPACE ++ "link") [("title", "pdf"), ("href", "u1")] none [])
    [Element.mk (ATOM_NAMESPACE ++ "link") [("title", "pdf"), ("href", "u2")] none []]
    (by decide) (by rfl)


/-- Evaluation of the descendant search on the two-entry test feed. -/
theorem findallRec_feedAB :
    findallRec (ATOM_NAMESPACE ++ "entry") feedAB = [entryA, entryB] := by
  simp [findallRec, findallRecList, feedAB, entryA, entryB, textEl,
    Element.children, ATOM_NAMESPACE]

/-- Evaluation of the descendant search on the entry-free test feed. -/
theorem findallRec_feedEmpty :
    findallRec (ATOM_NAMESPACE ++ "entry") feedEmpty = [] := by
  simp [findallRec, findallRecList, feedEmpty, textEl, Element.children,
    ATOM_NAMESPACE]

/-- C3: `search_papers` never propagates an exception: it always returns a
result; on success of fetch and XML parse that result is exactly the
successfully parsed entries in feed order, and any fetch or XML-parse
failure yields the empty sequence. -/
theorem search_papers_never_raises (fetch : Except Unit String)
    (fromstring : String → Except Unit Element) :
    (∃ results, search_papers fetch fromstring = Except.ok results) ∧
    (∀ xml_data root, fetch = Except.ok xml_data →
      fromstring xml_data = Except.ok root →
      search_papers fetch fromstring =
        Except.ok ((findallRec (ATOM_NAMESPACE ++ "entry") root).filterMap _parse_entry)) ∧
    ((fetch = Except.error () ∨
      ∃ xml_data, fetch = Except.ok xml_data ∧ fromstring xml_data = Except.error ()) →
      search_papers fetch fromstring = Except.ok []) := by
  refine ⟨?_, ?_, ?_⟩
  · rcases hf : fetch with e | xml_data
    · exact ⟨[], by simp [search_papers, searchBody]⟩
    · rcases hp : fromstring xml_data with e | root
      · exact ⟨[], by simp [search_papers, searchBody, hp]⟩
      · exact ⟨(findallRec (ATOM_NAMESPACE ++ "entry") root).filterMap _parse_entry,
          by simp [search_papers, searchBody, hp]⟩
  · intro xml_data root hf hp
    subst hf
    simp [search_papers, searchBody, hp]
  · intro hbad
    rcases hbad with hf | ⟨xml_data, hf, hp⟩
    · subst hf
      simp [search_papers, searchBody]
    · subst hf
      simp [search_papers, searchBody, hp]

/-- Witness for C3: a feed holding one well-formed and one malformed entry
yields exactly the one parsed record, and a failing fetch yields `[]`. -/
theorem search_papers_never_raises_witness :
    search_papers (fetchOk "feedAB") (fromstringOf "feedAB" feedAB) =
      Except.ok [recA] ∧
    search_papers (Except.error ()) (fromstringOf "feedAB" feedAB) =
      Except.ok [] := by
  constructor
  · have h := (search_papers_never_raises (fetchOk "feedAB")
      (fromstringOf "feedAB" feedAB)).2.1 "feedAB" feedAB (by rfl) (by rfl)
    rw [h, findallRec_feedAB]
    rfl
  · exact (search_papers_never_raises (Except.error ())
      (fromstringOf "feedAB" feedAB)).2.2 (Or.inl rfl)

/-- C4: `get_paper_details` never propagates an exception: it always returns
a result; on success of fetch and XML parse that result is the parse of the
first `entry` descendant of the feed when one exists and absent when the
feed has no entry, and any fetch or XML-parse failure yields the absent
result. -/
theorem get_paper_details_never_raises (fetch : Except Unit String)
    (fromstring : String → Except Unit Element) :
    (∃ res, get_paper_details fetch fromstring = Except.ok res) ∧
    (∀ xml_data root, fetch = Except.ok xml_data →
      fromstring xml_data = Except.ok root →
      get_paper_details fetch fromstring =
        Except.ok (((findallRec (ATOM_NAMESPACE ++ "entry") root).head?).bind _parse_entry)) ∧
    ((fetch = Except.error () ∨
      ∃ xml_data, fetch = Except.ok xml_data ∧ fromstring xml_data = Except.error ()) →
      get_paper_details fetch fromstring = Except.ok none) := by
  refine ⟨?_, ?_, ?_⟩
  · rcases hf : fetch with e | xml_data
    · exact ⟨none, by simp [get_paper_details, getBody]⟩
    · rcases hp : fromstring xml_data with e | root
      · exact ⟨none, by simp [get_paper_details, getBody, hp]⟩
      · rcases hh : (findallRec (ATOM_NAMESPACE ++ "entry") root).head? with _ | entry
        · exact ⟨none, by simp [get_paper_details, getBody, hp, hh]⟩
        · exact ⟨_parse_entry entry, by simp [get_paper_details, getBody, hp, hh]⟩
  · intro xml_data root hf hp
    subst hf
    rcases hh : (findallRec (ATOM_NAMESPACE ++ "entry") root).head? with _ | entry
    · simp [get_paper_details, getBody, hp, hh]
    · simp [get_paper_details, getBody, hp, hh]
  · intro hbad
    rcases hbad with hf | ⟨xml_data, hf, hp⟩
    · subst hf
      simp [get_paper_details, getBody]
    · subst hf
      simp [get_paper_details, getBody, hp]

/-- Witness for C4: a feed with zero entries yields the absent result, not
an exception, and a feed whose first entry is `entryA` yields its record. -/
theorem get_paper_details_never_raises_witness :
    get_paper_details (fetchOk "feedEmpty") (fromstringOf "feedEmpty" feedEmpty) =
      Except.ok none ∧
    get_paper_details (fetchOk "feedAB") (fromstringOf "feedAB" feedAB) =
      Except.ok (some recA) := by
  constructor
  · have h := (get_paper_details_never_raises (fetchOk "feedEmpty")
      (fromstringOf "feedEmpty" feedEmpty)).2.1 "feedEmpty" feedEmpty (by rfl) (by rfl)
    rw [h, findallRec_feedEmpty]
    rfl
  · have h := (get_paper_details_never_raises (fetchOk "feedAB")
      (fromstringOf "feedAB" feedAB)).2.1 "feedAB" feedAB (by rfl) (by rfl)
    rw [h, findallRec_feedAB]
    rfl

/-- Evaluation of the descendant search on the feed holding only `entryB`. -/
theorem findallRec_feedB :
    findallRec (ATOM_NAMESPACE ++ "entry") feedB = [entryB] := by
  simp [findallRec, findallRecList, feedB, entryB, textEl, Element.children,
    ATOM_NAMESPACE]

/-- Witness for C2: `entryB` (title element missing) parses to no record, the
parse of `entryPubNoText` stores the absent published text, the search over
`feedAB` omits `entryB`, and a get over `feedB` yields the absent result. -/
theorem missing_mandatory_field_discards_entry_witness :
    _parse_entry entryB = none ∧
    recPubNoText.published_date =
      (Element.mk (ATOM_NAMESPACE ++ "published") [] none []).text ∧
    search_papers (fetchOk "feedAB") (fromstringOf "feedAB" feedAB) =
      Except.ok ([entryA].filterMap _parse_entry) ∧
    get_paper_details (fetchOk "feedB") (fromstringOf "feedB" feedB) =
      Except.ok none :=
  ⟨missing_mandatory_field_discards_entry.1 entryB
      (Or.inr (Or.inr (Or.inl (by rfl)))),
   missing_mandatory_field_discards_entry.2.1 entryPubNoText recPubNoText
      (Element.mk (ATOM_NAMESPACE ++ "published") [] none [])
      (by decide) (by rfl),
   missing_mandatory_field_discards_entry.2.2.1 (fetchOk "feedAB")
      (fromstringOf "feedAB" feedAB) "feedAB" feedAB entryB [entryA] []
      rfl (by rfl) (by rw [findallRec_feedAB]; rfl)
      (Or.inr (Or.inr (Or.inl (by rfl)))),
   missing_mandatory_field_discards_entry.2.2.2 (fetchOk "feedB")
      (fromstringOf "feedB" feedB) "feedB" feedB entryB
      rfl (by rfl) (by rw [findallRec_feedB]; rfl)
      (Or.inr (Or.inr (Or.inl (by rfl))))⟩

end ArxivClient
